import Mathlib

/-!
# Verification of the SecureWipe Wizard backend (`desktop-app/src-tauri/src/lib.rs`)

This file gives a shallow embedding of the pure/stateful core of the Tauri
backend of the android-secure-wipe repository and proves or refutes the
frozen claims about it.

Modelling conventions:

* Rust `&str` / `String` values are modelled as `List Char` (`Str` below);
  Rust `String::len` (UTF-8 byte length) is modelled by `utf8Len` using the
  UTF-8 width of each scalar value.
* Rust's Unicode predicates `char::is_alphanumeric` / `char::is_numeric` /
  `char::is_whitespace` are modelled exactly on the ASCII and Latin-1 ranges
  (the ranges exercised by any input considered here); code points ≥ U+0100
  are conservatively mapped to `false`.
* Rust `f32` arithmetic on progress percentages is modelled exactly in `ℚ`.
* The effectful command `run_wipe` is modelled as a pure function over an
  explicit session state (`WipeState`, the `device_id: Mutex<Option<String>>`
  global) and an environment record describing the outcome of each external
  interaction (executable-path lookup, script probing, spawn, wait, exit
  status).  Event emission (`window.emit`) is not observable in any claim and
  is elided; the constructed argument vector and the number of successfully
  spawned wipe processes are recorded.
* A Rust panic (reachable in `parse_progress_line` through byte-indexed
  string slicing at a non-boundary) is modelled as `Except.error ()`.
-/

namespace SecureWipe

abbrev Str := List Char

instance {ε α : Type} [DecidableEq ε] [DecidableEq α] : DecidableEq (Except ε α) := fun a b =>
  match a, b with
  | .ok x, .ok y =>
    if h : x = y then .isTrue (by rw [h]) else .isFalse (fun hh => h (Except.ok.inj hh))
  | .error x, .error y =>
    if h : x = y then .isTrue (by rw [h]) else .isFalse (fun hh => h (Except.error.inj hh))
  | .ok _, .error _ => .isFalse (fun hh => Except.noConfusion hh)
  | .error _, .ok _ => .isFalse (fun hh => Except.noConfusion hh)

/-- UTF-8 byte width of a character (Rust `char::len_utf8`). -/
def charWidth (c : Char) : Nat :=
  if c.toNat ≤ 0x7F then 1 else if c.toNat ≤ 0x7FF then 2 else if c.toNat ≤ 0xFFFF then 3 else 4

/-- Rust `String::len`: the UTF-8 byte length of a string. -/
def utf8Len (s : Str) : Nat := (s.map charWidth).sum

/-- Model of Rust `char::is_alphanumeric` (Unicode `Alphabetic` or `Number`).
Exact on ASCII (`[A-Za-z0-9]`) and on the Latin-1 supplement (letters
U+00C0–U+00FF except × ÷, plus ª µ º and the numeric characters ² ³ ¹ ¼ ½ ¾);
code points ≥ U+0100 are conservatively mapped to `false`. -/
def rustIsAlphanumeric (c : Char) : Bool :=
  if c.toNat ≤ 0x7F then c.isAlpha || c.isDigit
  else if c.toNat ≤ 0xFF then
    decide (c.toNat = 0xAA) || decide (c.toNat = 0xB5) || decide (c.toNat = 0xBA) ||
    decide (c.toNat = 0xB2) || decide (c.toNat = 0xB3) || decide (c.toNat = 0xB9) ||
    decide (c.toNat = 0xBC) || decide (c.toNat = 0xBD) || decide (c.toNat = 0xBE) ||
    (decide (0xC0 ≤ c.toNat) && !decide (c.toNat = 0xD7) && !decide (c.toNat = 0xF7))
  else false

/-- Model of Rust `char::is_numeric` (Unicode `Number` category).
Exact on ASCII (`[0-9]`) and Latin-1 (² ³ ¹ ¼ ½ ¾); code points ≥ U+0100 are
conservatively mapped to `false`. -/
def rustIsNumeric (c : Char) : Bool :=
  if c.toNat ≤ 0x7F then c.isDigit
  else if c.toNat ≤ 0xFF then
    decide (c.toNat = 0xB2) || decide (c.toNat = 0xB3) || decide (c.toNat = 0xB9) ||
    decide (c.toNat = 0xBC) || decide (c.toNat = 0xBD) || decide (c.toNat = 0xBE)
  else false

/-- Model of Rust `char::is_whitespace` (Unicode `White_Space`), exact on the
ASCII and Latin-1 ranges. -/
def rustIsWhitespace (c : Char) : Bool :=
  c = ' ' || c = '\t' || c = '\n' || c = '\r' ||
  decide (c.toNat = 0x0B) || decide (c.toNat = 0x0C) ||
  decide (c.toNat = 0x85) || decide (c.toNat = 0xA0)

/-- The character class named by the spec for device identifiers:
`[A-Za-z0-9:._-]`. -/
def specCharOK (c : Char) : Bool :=
  c.isAlpha || c.isDigit || c = ':' || c = '.' || c = '-' || c = '_'

/-- The per-character test of `sanitize_device_id`
(`c.is_alphanumeric() || c == ':' || c == '.' || c == '-' || c == '_'`). -/
def validChar (c : Char) : Bool :=
  rustIsAlphanumeric c || c = ':' || c = '.' || c = '-' || c = '_'

/-- Embedding of `sanitize_device_id` (lib.rs lines 78–90).  Rejects when some
character fails `validChar`, when the string is empty, or when its UTF-8 byte
length exceeds 64; otherwise returns the string unchanged. -/
def sanitize_device_id (device_id : Str) : Except Str Str :=
  if !(device_id.all validChar) || device_id.isEmpty || decide (utf8Len device_id > 64) then
    .error ("Invalid device ID format".data)
  else
    .ok device_id

/-- The success predicate of the sanitizer: the negation of the rejection
condition of `sanitize_device_id`. -/
def sanitizeOK (s : Str) : Bool :=
  !(!(s.all validChar) || s.isEmpty || decide (utf8Len s > 64))

theorem sanitizeOK_iff (s : Str) :
    sanitizeOK s = true ↔ ((∀ c ∈ s, validChar c = true) ∧ s ≠ [] ∧ utf8Len s ≤ 64) := by
  unfold sanitizeOK
  simp only [Bool.not_eq_true', Bool.or_eq_false_iff, decide_eq_false_iff_not, Nat.not_lt]
  constructor
  · rintro ⟨⟨h1, h2⟩, h3⟩
    refine ⟨?_, by simpa [List.isEmpty_iff] using h2, h3⟩
    have h1a : s.all validChar = true := by simpa using h1
    simpa [List.all_eq_true] using h1a
  · rintro ⟨h1, h2, h3⟩
    exact ⟨⟨by simp only [Bool.not_eq_false', List.all_eq_true]; exact h1,
      by simpa [List.isEmpty_iff] using h2⟩, h3⟩

theorem sanitize_eq_ok_iff (s : Str) :
    sanitize_device_id s = .ok s ↔ sanitizeOK s = true := by
  unfold sanitize_device_id sanitizeOK
  rcases h : (!(s.all validChar) || s.isEmpty || decide (utf8Len s > 64)) <;> simp [h]

theorem sanitize_isOk_iff (s : Str) :
    (sanitize_device_id s).isOk = true ↔ sanitizeOK s = true := by
  unfold sanitize_device_id sanitizeOK
  rcases h : (!(s.all validChar) || s.isEmpty || decide (utf8Len s > 64)) <;>
    simp [h, Except.isOk, Except.toBool]

theorem sanitize_ok_elim {s t : Str} (h : sanitize_device_id s = .ok t) :
    t = s ∧ sanitizeOK s = true := by
  have hOk : (sanitize_device_id s).isOk = true := by rw [h]; rfl
  have hs := (sanitize_isOk_iff s).mp hOk
  have := (sanitize_eq_ok_iff s).mpr hs
  rw [this] at h
  exact ⟨(Except.ok.inj h).symm, hs⟩

/-! ## Line and token splitting (Rust `str::lines`, `str::split_whitespace`) -/

/-- Split at every newline, keeping all (possibly empty) segments. -/
def splitNl : Str → List Str
  | [] => [[]]
  | c :: rest =>
    if c = '\n' then [] :: splitNl rest
    else
      match splitNl rest with
      | [] => [[c]]
      | seg :: segs => (c :: seg) :: segs

/-- Strip one trailing carriage return, for a segment that was terminated by
a newline. -/
def stripCr (l : Str) : Str :=
  if l.getLast? = some '\r' then l.dropLast else l

/-- Model of Rust `str::lines`: split at `\n` (or `\r\n`); the final line
ending is optional, and a lone `\r` not followed by `\n` is not a line
ending. -/
def rustLines (s : Str) : List Str :=
  let segs := splitNl s
  let last := (segs.getLast?).getD []
  segs.dropLast.map stripCr ++ (if last.isEmpty then [] else [last])

/-- Accumulator pass for `splitWs`. -/
def splitWsAux : Str → Str → List Str
  | [], acc => if acc.isEmpty then [] else [acc.reverse]
  | c :: rest, acc =>
    if rustIsWhitespace c then
      if acc.isEmpty then splitWsAux rest [] else acc.reverse :: splitWsAux rest []
    else splitWsAux rest (c :: acc)

/-- Model of Rust `str::split_whitespace`: the maximal whitespace-free
tokens, in order. -/
def splitWs (s : Str) : List Str := splitWsAux s []

/-! ## Integer and decimal parsing (Rust `FromStr`) -/

/-- Numeric value of a list of ASCII digits. -/
def digitsNat (s : Str) : Nat := s.foldl (fun n c => n * 10 + (c.toNat - 48)) 0

/-- Model of Rust `str::parse` for an unsigned integer type with maximum
value `bound`: an optional leading `+`, then one or more ASCII digits, and
the value must fit (overflow is an error). -/
def rustParseNat (bound : Nat) (s : Str) : Option Nat :=
  let t := match s with
    | '+' :: rest => rest
    | _ => s
  if !t.isEmpty && t.all Char.isDigit && decide (digitsNat t ≤ bound) then
    some (digitsNat t)
  else none

def u64max : Nat := 2 ^ 64 - 1
def u32max : Nat := 2 ^ 32 - 1

/-- Model of Rust `str::parse::<f32>` restricted to the digit/dot strings
produced by the progress scanner, with the numeric value taken exactly in
`ℚ` (the `f32` rounding of in-range values is not observable in any claim).
Accepts `digits`, `digits.digits`, `digits.` and `.digits`; rejects the
empty string, a lone dot, more than one dot, and any non-ASCII digit. -/
def parseDecimal (s : Str) : Option ℚ :=
  let intPart := s.takeWhile Char.isDigit
  let rest := s.drop intPart.length
  match rest with
  | [] => if intPart.isEmpty then none else some ((digitsNat intPart : ℚ))
  | '.' :: frac =>
    if frac.all Char.isDigit && !(intPart.isEmpty && frac.isEmpty) then
      some ((digitsNat intPart : ℚ) + (digitsNat frac : ℚ) / (10 : ℚ) ^ frac.length)
    else none
  | _ => none

/-- Model of Rust `str::trim` (strip Unicode whitespace at both ends). -/
def rustTrim (s : Str) : Str :=
  ((s.dropWhile rustIsWhitespace).reverse.dropWhile rustIsWhitespace).reverse

/-- Model of Rust `str::trim_end_matches('%')`: remove every trailing `%`. -/
def trimEndPct (s : Str) : Str := (s.reverse.dropWhile (fun c => c = '%')).reverse

/-! ## Device enumeration and storage parsing -/

/-- Embedding of `parse_adb_devices` (lib.rs lines 93–106): skip the header
line, keep `(id, status)` for each line whose whitespace-split form has at
least two tokens with the second equal to `"device"`. -/
def parse_adb_devices (output : Str) : List (Str × Str) :=
  ((rustLines output).drop 1).filterMap fun line =>
    match splitWs line with
    | p0 :: p1 :: _ => if p1 = "device".data then some (p0, p1) else none
    | _ => none

structure StorageInfo where
  total_mb : Nat
  used_mb : Nat
  available_mb : Nat
  percent_used : Nat
deriving DecidableEq

/-- Embedding of `parse_df_output` (lib.rs lines 110–137): take the second
line, split on whitespace, require at least five fields; numeric fields that
fail to parse default to `0`; sizes are 1K-blocks floor-divided by 1024. -/
def parse_df_output (output : Str) : Except Str StorageInfo :=
  match (rustLines output)[1]? with
  | none => .error ("No data in df output".data)
  | some data_line =>
    let parts := splitWs data_line
    if parts.length < 5 then .error ("Unexpected df output format".data)
    else
      let total_kb := ((parts[1]?).bind (rustParseNat u64max)).getD 0
      let used_kb := ((parts[2]?).bind (rustParseNat u64max)).getD 0
      let available_kb := ((parts[3]?).bind (rustParseNat u64max)).getD 0
      let percent_str := (parts[4]?).getD ("0%".data)
      let percent_used := (rustParseNat 255 (trimEndPct percent_str)).getD 0
      .ok ⟨total_kb / 1024, used_kb / 1024, available_kb / 1024, percent_used⟩

example : parse_adb_devices ("List of devices attached\nemulator-5554\tdevice\n192.168.1.1:5555\tdevice\nRF123456\toffline\n".data) =
    [("emulator-5554".data, "device".data), ("192.168.1.1:5555".data, "device".data)] := by decide

example : parse_df_output ("Filesystem     1K-blocks    Used Available Use% Mounted on\n/dev/fuse      483563724 3229496 480203156   1% /storage/emulated\n".data) =
    .ok ⟨483563724 / 1024, 3229496 / 1024, 480203156 / 1024, 1⟩ := by decide

/-! ## ANSI escape stripping -/

/-- Embedding of `strip_ansi` (lib.rs lines 140–161).  The Rust loop is
translated to a flag: `true` means the scanner is inside an `ESC [ … m`
sequence and drops characters up to and including the first `m`; `false` is
the ordinary state, where `ESC` followed by `[` enters a sequence and a
lone `ESC` (not followed by `[`) is silently dropped. -/
def strip_ansi_go : Bool → Str → Str
  | _, [] => []
  | true, c :: rest => if c = 'm' then strip_ansi_go false rest else strip_ansi_go true rest
  | false, c :: rest =>
    if c = '\x1b' then
      match rest with
      | [] => []
      | d :: rest2 =>
        if d = '[' then strip_ansi_go true rest2 else strip_ansi_go false (d :: rest2)
    else c :: strip_ansi_go false rest

def strip_ansi (s : Str) : Str := strip_ansi_go false s

example : strip_ansi ("\x1b[0;32mPass 2 complete\x1b[0m".data) = "Pass 2 complete".data := by decide
example : strip_ansi ("Pass 2 complete".data) = "Pass 2 complete".data := by decide

/-! ## Substring search -/

/-- Whether `pat` is a prefix of `s`. -/
def startsWith : Str → Str → Bool
  | [], _ => true
  | _ :: _, [] => false
  | p :: ps, c :: cs => p = c && startsWith ps cs

/-- Index of the first occurrence of `pat` in `s` (Rust `str::find` for a
string pattern, in characters). -/
def findSubIdx : Str → Str → Option Nat
  | pat, [] => if pat.isEmpty then some 0 else none
  | pat, c :: rest =>
    if startsWith pat (c :: rest) then some 0 else (findSubIdx pat rest).map (· + 1)

/-- Rust `str::contains` for a string pattern. -/
def containsSub (pat s : Str) : Bool := (findSubIdx pat s).isSome

/-- Rust `split(pat).nth(1)`: the segment between the first and the second
occurrence of `pat` (up to the end when there is no second occurrence).
Only used after `containsSub pat s` has been checked. -/
def nth1After (pat s : Str) : Str :=
  match findSubIdx pat s with
  | none => s
  | some i =>
    let after := s.drop (i + pat.length)
    match findSubIdx pat after with
    | none => after
    | some j => after.take j

/-! ## Progress parsing -/

structure WipeProgress where
  pass : Nat
  total_passes : Nat
  percent : ℚ
  bytes_written : Nat
  message : Str
  phase : Str
deriving DecidableEq

/-- The test a character must pass to belong to the percentage run
(`is_numeric` or `.`, from the `rfind` closure in lib.rs line 216). -/
def numRunChar (c : Char) : Bool := rustIsNumeric c || c = '.'

/-- The run of numeric/dot characters immediately preceding position
`pctIdx` (the first `%`): `clean_line[start..pct_idx]` in lib.rs 215–219. -/
def pctRun (clean : Str) (pctIdx : Nat) : Str :=
  ((clean.take pctIdx).reverse.takeWhile numRunChar).reverse

/-- The character immediately before the percentage run, if any — the
character found by the Rust `rfind` whose byte index + 1 becomes the start
of the slice. -/
def pctBoundary (clean : Str) (pctIdx : Nat) : Option Char :=
  ((clean.take pctIdx).reverse.dropWhile numRunChar).head?

/-- The Rust code computes the slice start as `rfind`'s byte index plus one;
when the found character is wider than one UTF-8 byte that position is not a
character boundary and the byte-slice `clean_line[start..pct_idx]` panics. -/
def pctCrash (clean : Str) (pctIdx : Nat) : Bool :=
  (pctBoundary clean pctIdx).any (fun c => charWidth c != 1)

/-- The within-pass percentage parsed from the run before the `%`
(`0.0` on parse failure, lib.rs line 219). -/
def withinPct (clean : Str) (pctIdx : Nat) : ℚ :=
  (parseDecimal (pctRun clean pctIdx)).getD 0

/-- Embedding of `parse_progress_line` (lib.rs lines 168–238).  The result
is `.error ()` when the Rust code panics (see `pctCrash`), otherwise
`.ok none` for a non-progress line and `.ok (some _)` for a recognized one. -/
def parse_progress_line (line : Str) (total_passes : Nat) :
    Except Unit (Option WipeProgress) :=
  let clean := strip_ansi line
  if !containsSub ("Pass".data) clean then .ok none
  else if containsSub ("Passes completed:".data) clean then
    let pass := (rustParseNat u32max (rustTrim (nth1After ("Passes completed:".data) clean))).getD
      total_passes
    .ok (some ⟨pass, total_passes, 100, 0, clean, "complete".data⟩)
  else
    match findSubIdx ("Pass ".data) clean with
    | none => .ok none
    | some idx =>
      let pass := (rustParseNat u32max ((clean.drop (idx + 5)).takeWhile rustIsNumeric)).getD 1
      if containsSub ("complete".data) clean then
        .ok (some ⟨pass, total_passes, (pass : ℚ) / (total_passes : ℚ) * 100, 0, clean,
          "complete".data⟩)
      else
        match clean.findIdx? (fun c => c = '%') with
        | some pctIdx =>
          if pctCrash clean pctIdx then .error ()
          else
            .ok (some ⟨pass, total_passes,
              (((pass - 1 : Nat) : ℚ) + withinPct clean pctIdx / 100) / (total_passes : ℚ) * 100,
              0, clean, "writing".data⟩)
        | none => .ok (some ⟨pass, total_passes, 0, 0, clean, "writing".data⟩)

example : parse_progress_line ("\x1b[0;32mPass 2 complete\x1b[0m".data) 3 =
    .ok (some ⟨2, 3, ((2 : ℕ) : ℚ) / ((3 : ℕ) : ℚ) * 100, 0, "Pass 2 complete".data,
      "complete".data⟩) := rfl

example : parse_progress_line ("\x1b[0;32mPasses completed: 3\x1b[0m".data) 3 =
    .ok (some ⟨3, 3, 100, 0, "Passes completed: 3".data, "complete".data⟩) := by decide

example : parse_progress_line ("Starting wipe operation...".data) 3 = .ok none := by decide

example : parse_progress_line ("PROGRESS: Pass 2 - 25000MB / 50000MB (50%)".data) 3 =
    .ok (some ⟨2, 3, (((1 : ℕ) : ℚ) + ((50 : ℕ) : ℚ) / 100) / ((3 : ℕ) : ℚ) * 100, 0,
      "PROGRESS: Pass 2 - 25000MB / 50000MB (50%)".data, "writing".data⟩) := rfl

example : (((1 : ℕ) : ℚ) + ((50 : ℕ) : ℚ) / 100) / ((3 : ℕ) : ℚ) * 100 = 50 := by norm_num

/-! ## Wipe session controller

`run_wipe` is effectful in the source; it is modelled as a pure function of
the prior session state (`WipeState`, the `device_id: Mutex<Option<String>>`
global managed by Tauri) and a `WipeEnv` record fixing the outcome of each
external interaction, in the exact order the source performs them.  Emitted
window events are not observable in any claim and are elided; formatted
error/success messages are kept as their fixed prefixes (the interpolated
`format!` payloads and quote characters are elided). -/

structure WipeConfig where
  mode : Str
  passes : Nat
  size_mb : Option Nat
  double_reset : Bool
deriving DecidableEq

structure WipeState where
  device_id : Option Str
deriving DecidableEq

/-- Outcomes of the external interactions of one `run_wipe` call:
`current_exe` lookup, probing for the script, `spawn`, `wait`, and the
child's exit status. -/
structure WipeEnv where
  exe_ok : Bool
  script_found : Bool
  spawn_ok : Bool
  wait_ok : Bool
  exit_success : Bool
deriving DecidableEq

structure RunWipeOutcome where
  result : Except Str Str
  state : WipeState
  /-- Number of wipe child processes successfully spawned by this call. -/
  spawned : Nat
  /-- The argument vector built for the wipe process (script name followed
  by its arguments), when control reaches its construction. -/
  argv : Option (List Str)
deriving DecidableEq

/-- Rust `u32::clamp(lo, hi)`. -/
def clampNat (lo hi n : Nat) : Nat := max lo (min hi n)

/-- Embedding of `run_wipe` (lib.rs lines 359–486), step for step:
sanitize; store the id in the session state; clamp `passes` and `size_mb`;
validate `mode`; resolve the exe path and the scripts directory; build the
argument vector; spawn; stream/parse output (elided: it does not affect
result, state, spawn count or argv); wait; clear the session state; report
exit status. -/
def run_wipe (st : WipeState) (env : WipeEnv) (device_id : Str) (config : WipeConfig) :
    RunWipeOutcome :=
  match sanitize_device_id device_id with
  | .error e => ⟨.error e, st, 0, none⟩
  | .ok id =>
    let st1 : WipeState := ⟨some id⟩
    let passes := clampNat 1 20 config.passes
    let size_mb := (config.size_mb.map (clampNat 64 10240)).getD 1024
    if config.mode ≠ "quick".data ∧ config.mode ≠ "full".data then
      ⟨.error ("Invalid wipe mode. Must be quick or full.".data), st1, 0, none⟩
    else
      let script := if config.mode = "quick".data then "quick_wipe.sh".data else "full_wipe.sh".data
      if !env.exe_ok then ⟨.error ("Failed to get exe path".data), st1, 0, none⟩
      else if !env.script_found then
        ⟨.error ("Scripts directory not found. Please reinstall the application.".data), st1, 0,
          none⟩
      else
        let argv := [script, "-d".data, id, "-p".data, (Nat.repr passes).data, "-y".data,
          "--raw".data] ++ (if config.mode = "quick".data then
            ["-s".data, (Nat.repr size_mb).data] else [])
        if !env.spawn_ok then
          ⟨.error ("Failed to start wipe".data), st1, 0, some argv⟩
        else if !env.wait_ok then
          ⟨.error ("Wipe process error".data), st1, 1, some argv⟩
        else
          let st2 : WipeState := ⟨none⟩
          if env.exit_success then
            ⟨.ok ("Wipe completed successfully".data), st2, 1, some argv⟩
          else
            ⟨.error ("Wipe failed. Check device connection and try again.".data), st2, 1,
              some argv⟩

/-- Embedding of `abort_wipe` (lib.rs lines 490–542): with no stored device
id it fails and changes nothing; otherwise it issues three best-effort kill
and cleanup commands whose results are ignored (elided: they affect neither
the result nor the state), clears the session state, and succeeds. -/
def abort_wipe (st : WipeState) : Except Str Str × WipeState :=
  match st.device_id with
  | none => (.error ("No wipe operation in progress.".data), st)
  | some _ => (.ok ("Wipe aborted. Temporary files cleaned up.".data), ⟨none⟩)

/-! ## Argument-vector construction for the remaining device commands

Each Tauri command that takes a caller-supplied `device_id` first runs it
through `sanitize_device_id` and then embeds the sanitized id into an `adb`
argument vector; these constructors record that flow.  `check_adb` is the
exception: it takes the identifier from the parsed `adb devices` output and
embeds it with no sanitization. -/

/-- `get_storage_info` (lib.rs lines 339–347): sanitize, then run
`adb -s <id> shell df /sdcard`. -/
def get_storage_info_argv (device_id : Str) : Except Str (List Str) :=
  (sanitize_device_id device_id).map fun id =>
    ["-s".data, id, "shell".data, "df".data, "/sdcard".data]

/-- `run_factory_reset` (lib.rs lines 546–564): sanitize, then run
`adb -s <id> shell am start -a <intent>` for each candidate intent. -/
def run_factory_reset_argv (device_id intent : Str) : Except Str (List Str) :=
  (sanitize_device_id device_id).map fun id =>
    ["-s".data, id, "shell".data, "am".data, "start".data, "-a".data, intent]

/-- `revoke_adb` (lib.rs lines 707–722): sanitize, then run
`adb -s <id> shell settings put global adb_enabled 0`. -/
def revoke_adb_argv (device_id : Str) : Except Str (List Str) :=
  (sanitize_device_id device_id).map fun id =>
    ["-s".data, id, "shell".data, "settings".data, "put".data, "global".data,
      "adb_enabled".data, "0".data]

/-- `cleanup_wipe_files` (lib.rs lines 733–747): sanitize, then run
`adb -s <id> shell rm -rf /sdcard/wipe_temp /sdcard/secure_wipe_*`. -/
def cleanup_wipe_files_argv (device_id : Str) : Except Str (List Str) :=
  (sanitize_device_id device_id).map fun id =>
    ["-s".data, id, "shell".data, "rm".data, "-rf".data, "/sdcard/wipe_temp".data,
      "/sdcard/secure_wipe_*".data]

/-- `check_adb` (lib.rs lines 285–323): parse `adb devices` output, take the
first connected device id, and embed it **unsanitized** into
`adb -s <id> shell getprop <prop>`; `none` when no device is connected (the
command errors out before any `getprop`). -/
def check_adb_getprop_argv (stdout prop : Str) : Option (List Str) :=
  match parse_adb_devices stdout with
  | [] => none
  | (id, _) :: _ => some ["-s".data, id, "shell".data, "getprop".data, prop]

/-! ## ASCII helper lemmas -/

theorem charWidth_eq_one {c : Char} (h : c.toNat ≤ 127) : charWidth c = 1 := by
  unfold charWidth
  rw [if_pos h]

theorem utf8Len_ascii {s : Str} (h : ∀ c ∈ s, c.toNat ≤ 127) : utf8Len s = s.length := by
  induction s with
  | nil => rfl
  | cons c t ih =>
    unfold utf8Len at *
    rw [List.map_cons, List.sum_cons, charWidth_eq_one (h c (by simp)),
      ih (fun x hx => h x (by simp [hx])), List.length_cons]
    omega

theorem validChar_ascii {c : Char} (h : c.toNat ≤ 127) : validChar c = specCharOK c := by
  unfold validChar specCharOK rustIsAlphanumeric
  rw [if_pos h]

/-! ## Claim C2 -/

/-- **C2** (corrected).  The sanitizer accepts exactly the non-empty strings
of UTF-8 byte length at most 64 all of whose characters pass `validChar`
(Unicode-alphanumeric or `:._-`), returning the string unchanged; restricted
to ASCII strings this coincides with the claimed character class
`[A-Za-z0-9:._-]` and character-count bound.  The claim's "fails for every
string containing any character outside `[A-Za-z0-9:._-]`" is wrong for
non-ASCII alphanumerics — see `C2_counterexample`. -/
theorem C2_sanitize_characterization (s : Str) :
    ((sanitize_device_id s).isOk = true → sanitize_device_id s = .ok s)
    ∧ ((sanitize_device_id s).isOk = true ↔
        ((∀ c ∈ s, validChar c = true) ∧ s ≠ [] ∧ utf8Len s ≤ 64))
    ∧ ((∀ c ∈ s, c.toNat ≤ 127) →
        ((sanitize_device_id s).isOk = true ↔
          ((∀ c ∈ s, specCharOK c = true) ∧ s ≠ [] ∧ s.length ≤ 64))) := by
  refine ⟨?_, ?_, ?_⟩
  · intro h
    exact (sanitize_eq_ok_iff s).mpr ((sanitize_isOk_iff s).mp h)
  · rw [sanitize_isOk_iff, sanitizeOK_iff]
  · intro hascii
    rw [sanitize_isOk_iff, sanitizeOK_iff, utf8Len_ascii hascii]
    constructor
    · rintro ⟨h1, h2, h3⟩
      exact ⟨fun c hc => by rw [← validChar_ascii (hascii c hc)]; exact h1 c hc, h2, h3⟩
    · rintro ⟨h1, h2, h3⟩
      exact ⟨fun c hc => by rw [validChar_ascii (hascii c hc)]; exact h1 c hc, h2, h3⟩

/-- The accented letter `é` is outside `[A-Za-z0-9:._-]`, yet
`sanitize_device_id` accepts it (Rust `char::is_alphanumeric` is a Unicode
property), refuting the claim's "fails for every string that … contains any
character outside `[A-Za-z0-9:._-]`". -/
theorem C2_counterexample :
    (sanitize_device_id ("é".data)).isOk = true ∧ specCharOK 'é' = false := by decide

theorem C2_witness :
    (sanitize_device_id ("emulator-5554".data)).isOk = true ↔
      ((∀ c ∈ ("emulator-5554".data), specCharOK c = true) ∧ ("emulator-5554".data) ≠ [] ∧
        ("emulator-5554".data).length ≤ 64) :=
  (C2_sanitize_characterization ("emulator-5554".data)).2.2 (by decide)

/-! ## Claim C1 -/

/-- **C1** (corrected).  `run_wipe` performs no concurrency check at all:
whenever the identifier passes the sanitizer, its outcome (result, final
session state, spawn count, argument vector) is completely independent of
the prior session state — a call made while `active_device` is non-empty
proceeds exactly as a call from the idle state, overwriting `active_device`
and spawning as usual, instead of failing with a wipe-already-in-progress
error.  See `C1_counterexample`. -/
theorem C1_no_concurrency_check (st st2 : WipeState) (env : WipeEnv) (device_id : Str)
    (cfg : WipeConfig) (h : (sanitize_device_id device_id).isOk = true) :
    run_wipe st env device_id cfg = run_wipe st2 env device_id cfg := by
  unfold run_wipe
  cases hs : sanitize_device_id device_id with
  | error e => rw [hs] at h; simp [Except.isOk, Except.toBool] at h
  | ok id => rfl

/-- With a wipe already recorded in progress (`active_device = some "dev0"`)
and a healthy environment, `run_wipe` succeeds, spawns a process, and
rewrites the session state — it does not fail with a concurrency error,
does mutate state, and does spawn a second overwrite process. -/
theorem C1_counterexample :
    (run_wipe ⟨some ("dev0".data)⟩ ⟨true, true, true, true, true⟩ ("emulator-5554".data)
      ⟨"quick".data, 3, none, false⟩).result.isOk = true ∧
    (run_wipe ⟨some ("dev0".data)⟩ ⟨true, true, true, true, true⟩ ("emulator-5554".data)
      ⟨"quick".data, 3, none, false⟩).spawned = 1 ∧
    (run_wipe ⟨some ("dev0".data)⟩ ⟨true, true, true, true, true⟩ ("emulator-5554".data)
      ⟨"quick".data, 3, none, false⟩).state = ⟨none⟩ := by decide

theorem C1_witness :
    run_wipe ⟨some ("dev0".data)⟩ ⟨true, true, true, true, true⟩ ("emulator-5554".data)
      ⟨"quick".data, 3, none, false⟩ =
    run_wipe ⟨none⟩ ⟨true, true, true, true, true⟩ ("emulator-5554".data)
      ⟨"quick".data, 3, none, false⟩ :=
  C1_no_concurrency_check _ _ _ _ _ (by decide)

/-! ## Claim C5 -/

/-- **C5** (corrected).  With an accepted identifier and a mode other than
`"quick"` and `"full"`, `run_wipe` fails with the invalid-mode error and
spawns nothing — but the session state **is** mutated: `active_device` has
already been set to the sanitized identifier and is left that way after the
rejection, contradicting the claim's "no state mutated … still empty".
See `C5_counterexample`. -/
theorem C5_invalid_mode (st : WipeState) (env : WipeEnv) (raw id : Str) (cfg : WipeConfig)
    (hs : sanitize_device_id raw = .ok id)
    (hq : cfg.mode ≠ "quick".data) (hf : cfg.mode ≠ "full".data) :
    run_wipe st env raw cfg =
      ⟨.error ("Invalid wipe mode. Must be quick or full.".data), ⟨some id⟩, 0, none⟩ := by
  simp only [run_wipe, hs]
  split
  · rfl
  · rename_i hcond
    exact absurd ⟨hq, hf⟩ hcond

/-- Invalid mode `"fast"` from the idle state: the invalid-mode error is
returned, but `active_device` ends up `some "emulator-5554"`, not `none`. -/
theorem C5_counterexample :
    (run_wipe ⟨none⟩ ⟨true, true, true, true, true⟩ ("emulator-5554".data)
      ⟨"fast".data, 3, none, false⟩).result =
        .error ("Invalid wipe mode. Must be quick or full.".data) ∧
    (run_wipe ⟨none⟩ ⟨true, true, true, true, true⟩ ("emulator-5554".data)
      ⟨"fast".data, 3, none, false⟩).state = ⟨some ("emulator-5554".data)⟩ := by decide

theorem C5_witness :
    run_wipe ⟨none⟩ ⟨true, true, true, true, true⟩ ("emulator-5554".data)
      ⟨"fast".data, 3, none, false⟩ =
      ⟨.error ("Invalid wipe mode. Must be quick or full.".data),
        ⟨some ("emulator-5554".data)⟩, 0, none⟩ :=
  C5_invalid_mode _ _ _ _ _ (by decide) (by decide) (by decide)

/-! ## Claim C4 -/

/-- **C4** (corrected).  `active_device` is `none` after `run_wipe` returns
having waited on the child (both the success and the non-zero-exit failure
path) and after `abort_wipe` (whether or not a wipe was in progress) — but
**not** after the earlier error returns: when script resolution fails the
state is left holding the accepted identifier, contradicting the claim's
"any error after the identifier was accepted (including script-not-found
and spawn failure)".  See `C4_counterexample`. -/
theorem C4_cleared_on_termination (st : WipeState) (env : WipeEnv) (raw id : Str)
    (cfg : WipeConfig) (hs : sanitize_device_id raw = .ok id)
    (hmode : cfg.mode = "quick".data ∨ cfg.mode = "full".data) :
    ((env.exe_ok = true ∧ env.script_found = true ∧ env.spawn_ok = true ∧ env.wait_ok = true) →
      (run_wipe st env raw cfg).state = ⟨none⟩)
    ∧ (∀ st2 : WipeState, (abort_wipe st2).2.device_id = none)
    ∧ (env.exe_ok = true → env.script_found = false →
      (run_wipe st env raw cfg).state = ⟨some id⟩) := by
  have hmode2 : ¬(cfg.mode ≠ "quick".data ∧ cfg.mode ≠ "full".data) := by tauto
  refine ⟨?_, ?_, ?_⟩
  · rintro ⟨h1, h2, h3, h4⟩
    simp only [run_wipe, hs, h1, h2, h3, h4]
    split
    · rename_i hcond
      exact absurd hcond hmode2
    · cases h5 : env.exit_success <;> simp [h5]
  · intro st2
    rcases st2 with ⟨d⟩
    cases d <;> rfl
  · intro h1 h2
    simp only [run_wipe, hs, h1, h2]
    split
    · rename_i hcond
      exact absurd hcond hmode2
    · rfl

/-- When the scripts directory is not found, `run_wipe` errors out but the
session state is left holding the accepted identifier, not `none`. -/
theorem C4_counterexample :
    (run_wipe ⟨none⟩ ⟨true, false, true, true, true⟩ ("emulator-5554".data)
      ⟨"quick".data, 3, none, false⟩).result =
        .error ("Scripts directory not found. Please reinstall the application.".data) ∧
    (run_wipe ⟨none⟩ ⟨true, false, true, true, true⟩ ("emulator-5554".data)
      ⟨"quick".data, 3, none, false⟩).state = ⟨some ("emulator-5554".data)⟩ := by decide

theorem C4_witness :
    (run_wipe ⟨none⟩ ⟨true, true, true, true, false⟩ ("emulator-5554".data)
      ⟨"quick".data, 3, none, false⟩).state = ⟨none⟩ ∧
    (abort_wipe ⟨some ("emulator-5554".data)⟩).2.device_id = none :=
  ⟨(C4_cleared_on_termination ⟨none⟩ ⟨true, true, true, true, false⟩ ("emulator-5554".data)
      ("emulator-5554".data) ⟨"quick".data, 3, none, false⟩ (by decide) (Or.inl rfl)).1
      ⟨rfl, rfl, rfl, rfl⟩,
    (C4_cleared_on_termination ⟨none⟩ ⟨true, true, true, true, false⟩ ("emulator-5554".data)
      ("emulator-5554".data) ⟨"quick".data, 3, none, false⟩ (by decide) (Or.inl rfl)).2.1
      ⟨some ("emulator-5554".data)⟩⟩

/-! ## Claim C3 -/

/-- **C3** (corrected).  Every *caller-supplied* device identifier is
sanitized before being embedded into a subprocess argument vector: whenever
`get_storage_info`, `run_factory_reset`, `revoke_adb`, `cleanup_wipe_files`
or `run_wipe` constructs its argument vector, the embedded identifier is the
input string itself having passed `sanitizeOK`.  The claim's universal
statement is nevertheless false: `check_adb` embeds the identifier parsed
from the device-listing output with no sanitization — see
`C3_counterexample`. -/
theorem C3_caller_ids_sanitized (d intent raw : Str) (st : WipeState) (env : WipeEnv)
    (cfg : WipeConfig) :
    (∀ a, get_storage_info_argv d = .ok a → a[1]? = some d ∧ sanitizeOK d = true)
    ∧ (∀ a, run_factory_reset_argv d intent = .ok a → a[1]? = some d ∧ sanitizeOK d = true)
    ∧ (∀ a, revoke_adb_argv d = .ok a → a[1]? = some d ∧ sanitizeOK d = true)
    ∧ (∀ a, cleanup_wipe_files_argv d = .ok a → a[1]? = some d ∧ sanitizeOK d = true)
    ∧ (∀ a, (run_wipe st env raw cfg).argv = some a →
        a[2]? = some raw ∧ sanitizeOK raw = true) := by
  have hmap : ∀ (f : Str → List Str) (a : List Str),
      (sanitize_device_id d).map f = .ok a → a = f d ∧ sanitizeOK d = true := by
    intro f a ha
    cases hs : sanitize_device_id d with
    | error e => rw [hs] at ha; simp [Except.map] at ha
    | ok t =>
      obtain ⟨ht, hOk⟩ := sanitize_ok_elim hs
      subst ht
      rw [hs] at ha
      simp only [Except.map] at ha
      exact ⟨(Except.ok.inj ha).symm, hOk⟩
  refine ⟨?_, ?_, ?_, ?_, ?_⟩
  · intro a ha
    obtain ⟨rfl, hOk⟩ := hmap _ a ha
    exact ⟨rfl, hOk⟩
  · intro a ha
    obtain ⟨rfl, hOk⟩ := hmap _ a ha
    exact ⟨rfl, hOk⟩
  · intro a ha
    obtain ⟨rfl, hOk⟩ := hmap _ a ha
    exact ⟨rfl, hOk⟩
  · intro a ha
    obtain ⟨rfl, hOk⟩ := hmap _ a ha
    exact ⟨rfl, hOk⟩
  · intro a ha
    cases hs : sanitize_device_id raw with
    | error e =>
      simp only [run_wipe, hs] at ha
      exact Option.noConfusion ha
    | ok t =>
      obtain ⟨ht, hOk⟩ := sanitize_ok_elim hs
      subst ht
      simp only [run_wipe, hs] at ha
      refine ⟨?_, hOk⟩
      split at ha
      · exact Option.noConfusion ha
      · split at ha
        · exact Option.noConfusion ha
        · split at ha
          · exact Option.noConfusion ha
          · split at ha
            · obtain rfl := Option.some.inj ha
              simp
            · split at ha
              · obtain rfl := Option.some.inj ha
                simp
              · split at ha <;>
                · obtain rfl := Option.some.inj ha
                  simp

/-- `check_adb` takes the first identifier from the raw `adb devices`
listing and embeds it into the `getprop` argument vector unsanitized: the
token `$(reboot)` — rejected by the sanitizer — reaches the argument
vector. -/
theorem C3_counterexample :
    check_adb_getprop_argv ("List of devices attached\n$(reboot)\tdevice\n".data)
        ("ro.product.model".data) =
      some ["-s".data, "$(reboot)".data, "shell".data, "getprop".data,
        "ro.product.model".data] ∧
    sanitizeOK ("$(reboot)".data) = false := by decide

theorem C3_witness :
    ((["-s".data, "emulator-5554".data, "shell".data, "df".data, "/sdcard".data] :
      List Str)[1]? = some ("emulator-5554".data)) ∧
      sanitizeOK ("emulator-5554".data) = true :=
  (C3_caller_ids_sanitized ("emulator-5554".data) [] [] ⟨none⟩ ⟨true, true, true, true, true⟩
    ⟨"quick".data, 3, none, false⟩).1 _ (by decide)

/-! ## Claim C9 -/

theorem strip_ansi_go_false_cons_ne (c : Char) (t : Str) (hc : c ≠ '\x1b') :
    strip_ansi_go false (c :: t) = c :: strip_ansi_go false t := by
  cases t with
  | nil => simp [strip_ansi_go, hc]
  | cons d t2 =>
    simp only [strip_ansi_go]
    rw [if_neg hc]

theorem strip_ansi_go_false_esc_bracket (t : Str) :
    strip_ansi_go false ('\x1b' :: '[' :: t) = strip_ansi_go true t := by
  simp [strip_ansi_go]

theorem strip_ansi_go_false_no_esc (s : Str) (h : ∀ c ∈ s, c ≠ '\x1b') :
    strip_ansi_go false s = s := by
  induction s with
  | nil => rfl
  | cons c rest ih =>
    rw [strip_ansi_go_false_cons_ne c rest (h c (by simp)),
      ih (fun x hx => h x (by simp [hx]))]

theorem strip_ansi_go_true_no_m (body : Str) (h : ∀ c ∈ body, c ≠ 'm') :
    strip_ansi_go true body = [] := by
  induction body with
  | nil => rfl
  | cons c rest ih =>
    simp only [strip_ansi_go]
    rw [if_neg (h c (by simp))]
    exact ih (fun x hx => h x (by simp [hx]))

theorem strip_ansi_go_true_append (body suf : Str) (h : ∀ c ∈ body, c ≠ 'm') :
    strip_ansi_go true (body ++ 'm' :: suf) = strip_ansi_go false suf := by
  induction body with
  | nil => simp [strip_ansi_go]
  | cons c rest ih =>
    simp only [List.cons_append, strip_ansi_go]
    rw [if_neg (h c (by simp))]
    exact ih (fun x hx => h x (by simp [hx]))

theorem strip_ansi_go_false_append (pre rest : Str) (h : ∀ c ∈ pre, c ≠ '\x1b') :
    strip_ansi_go false (pre ++ '\x1b' :: '[' :: rest) = pre ++ strip_ansi_go true rest := by
  induction pre with
  | nil => simp [strip_ansi_go_false_esc_bracket]
  | cons c restp ih =>
    rw [List.cons_append, strip_ansi_go_false_cons_ne c _ (h c (by simp)),
      ih (fun x hx => h x (by simp [hx])), List.cons_append]

/-- **C9** (confirmed).  `strip_ansi` removes an `ESC [ … m` sequence whole
(from the `ESC` through the first terminating `m`, inclusive), consumes to
the end of the line when the sequence is unterminated, returns any string
containing no escape character unchanged, and maps the spec's example
`"\x1b[0;32mPass 2 complete\x1b[0m"` to `"Pass 2 complete"`. -/
theorem C9_strip_escape_sequences (pre body suf : Str)
    (hpre : ∀ c ∈ pre, c ≠ '\x1b') (hbody : ∀ c ∈ body, c ≠ 'm') :
    strip_ansi (pre ++ '\x1b' :: '[' :: (body ++ 'm' :: suf)) = pre ++ strip_ansi suf
    ∧ strip_ansi (pre ++ '\x1b' :: '[' :: body) = pre
    ∧ (∀ s : Str, (∀ c ∈ s, c ≠ '\x1b') → strip_ansi s = s)
    ∧ strip_ansi ("\x1b[0;32mPass 2 complete\x1b[0m".data) = "Pass 2 complete".data := by
  refine ⟨?_, ?_, ?_, by decide⟩
  · unfold strip_ansi
    rw [strip_ansi_go_false_append pre _ hpre, strip_ansi_go_true_append body suf hbody]
  · unfold strip_ansi
    rw [strip_ansi_go_false_append pre body hpre, strip_ansi_go_true_no_m body hbody,
      List.append_nil]
  · intro s hs
    exact strip_ansi_go_false_no_esc s hs

theorem C9_witness :
    strip_ansi ("ab".data ++ '\x1b' :: '[' :: ("0;32".data ++ 'm' :: "cd".data)) =
      "ab".data ++ strip_ansi ("cd".data) ∧
    strip_ansi ("ab".data ++ '\x1b' :: '[' :: "0;32".data) = "ab".data :=
  ⟨(C9_strip_escape_sequences ("ab".data) ("0;32".data) ("cd".data) (by decide) (by decide)).1,
   (C9_strip_escape_sequences ("ab".data) ("0;32".data) ("cd".data) (by decide) (by decide)).2.1⟩

/-! ## Claim C10 -/

/-- **C10** (confirmed).  `parse_df_output` succeeds exactly when the input
has a second line whose whitespace-split form has at least five tokens, and
on success each size field is the token's parsed value (0 when the token
does not parse as a `u64`) floor-divided by 1024, and `percent_used` is the
fifth token with trailing `%` stripped parsed as `u8` (0 on failure). -/
theorem C10_parse_df_total (output : Str) :
    ((parse_df_output output).isOk = true ↔
      (∃ l, (rustLines output)[1]? = some l ∧ 5 ≤ (splitWs l).length))
    ∧ (∀ info, parse_df_output output = .ok info →
        ∃ l, (rustLines output)[1]? = some l ∧ 5 ≤ (splitWs l).length ∧
          info = ⟨(((splitWs l)[1]?.bind (rustParseNat u64max)).getD 0) / 1024,
                  (((splitWs l)[2]?.bind (rustParseNat u64max)).getD 0) / 1024,
                  (((splitWs l)[3]?.bind (rustParseNat u64max)).getD 0) / 1024,
                  (rustParseNat 255 (trimEndPct (((splitWs l)[4]?).getD ("0%".data)))).getD 0⟩) := by
  constructor
  · cases h1 : (rustLines output)[1]? with
    | none =>
      simp only [parse_df_output, h1]
      constructor
      · intro h; exact absurd h (by simp [Except.isOk, Except.toBool])
      · rintro ⟨l, hl, _⟩; exact Option.noConfusion hl
    | some l =>
      simp only [parse_df_output, h1]
      by_cases h2 : (splitWs l).length < 5
      · rw [if_pos h2]
        constructor
        · intro h; exact absurd h (by simp [Except.isOk, Except.toBool])
        · rintro ⟨l2, hl2, hlen⟩
          obtain rfl := Option.some.inj hl2
          omega
      · rw [if_neg h2]
        constructor
        · intro _; exact ⟨l, rfl, by omega⟩
        · intro _; rfl
  · intro info hinfo
    cases h1 : (rustLines output)[1]? with
    | none =>
      simp only [parse_df_output, h1] at hinfo
      exact Except.noConfusion hinfo
    | some l =>
      simp only [parse_df_output, h1] at hinfo
      by_cases h2 : (splitWs l).length < 5
      · rw [if_pos h2] at hinfo
        exact Except.noConfusion hinfo
      · rw [if_neg h2] at hinfo
        exact ⟨l, rfl, by omega, (Except.ok.inj hinfo).symm⟩

theorem C10_witness :
    (parse_df_output
      ("Filesystem 1K-blocks Used Available Use% Mounted\n/dev/fuse x y z q% /s\n".data)).isOk
        = true :=
  (C10_parse_df_total _).1.mpr ⟨"/dev/fuse x y z q% /s".data, by decide, by decide⟩

/-! ## Substring-search lemmas -/

theorem startsWith_iff (p : Str) : ∀ s : Str, (startsWith p s = true ↔ ∃ t, s = p ++ t) := by
  induction p with
  | nil => intro s; simp [startsWith]
  | cons a ps ih =>
    intro s
    cases s with
    | nil =>
      simp only [startsWith, List.cons_append]
      constructor
      · intro h; exact Bool.noConfusion h
      · rintro ⟨t, ht⟩; exact List.noConfusion ht
    | cons b t =>
      simp only [startsWith, Bool.and_eq_true, decide_eq_true_eq]
      constructor
      · rintro ⟨rfl, hst⟩
        obtain ⟨t2, rfl⟩ := (ih t).mp hst
        exact ⟨t2, rfl⟩
      · rintro ⟨t2, ht⟩
        obtain ⟨rfl, rfl⟩ := List.cons.inj ht
        exact ⟨rfl, (ih _).mpr ⟨t2, rfl⟩⟩

theorem findSubIdx_isSome_iff (p : Str) :
    ∀ s : Str, ((findSubIdx p s).isSome = true ↔ ∃ a b, s = a ++ p ++ b) := by
  intro s
  induction s with
  | nil =>
    simp only [findSubIdx]
    by_cases hp : p.isEmpty
    · rw [if_pos hp]
      simp only [Option.isSome_some, true_iff]
      exact ⟨[], [], by simp [List.isEmpty_iff.mp hp]⟩
    · rw [if_neg hp]
      constructor
      · intro h; exact Bool.noConfusion h
      · rintro ⟨a, b, hab⟩
        obtain ⟨hap, _⟩ := List.append_eq_nil.mp hab.symm
        obtain ⟨_, hp2⟩ := List.append_eq_nil.mp hap
        exact absurd (by simp [hp2]) hp
  | cons c rest ih =>
    simp only [findSubIdx]
    by_cases hsw : startsWith p (c :: rest) = true
    · rw [if_pos hsw]
      simp only [Option.isSome_some, true_iff]
      obtain ⟨t, ht⟩ := (startsWith_iff p _).mp hsw
      exact ⟨[], t, by simp [ht]⟩
    · rw [if_neg hsw]
      constructor
      · intro h
        cases hfi : findSubIdx p rest with
        | none => rw [hfi] at h; exact Bool.noConfusion h
        | some j =>
          obtain ⟨a, b, hab⟩ := ih.mp (by rw [hfi]; rfl)
          exact ⟨c :: a, b, by simp [hab]⟩
      · rintro ⟨a, b, hab⟩
        rcases a with _ | ⟨x, a2⟩
        · exact absurd ((startsWith_iff p _).mpr ⟨b, by simpa using hab⟩) hsw
        · obtain ⟨rfl, hrest⟩ := List.cons.inj hab
          have h2 := ih.mpr ⟨a2, b, hrest⟩
          cases hfi : findSubIdx p rest with
          | none => rw [hfi] at h2; exact Bool.noConfusion h2
          | some j => rfl

theorem containsSub_iff (p s : Str) : containsSub p s = true ↔ ∃ a b, s = a ++ p ++ b :=
  findSubIdx_isSome_iff p s

theorem containsSub_of_find {p s : Str} {i : Nat} (h : findSubIdx p s = some i) :
    containsSub p s = true := by
  unfold containsSub
  rw [h]
  rfl

theorem containsSub_mono {p q s : Str} (hpq : ∃ x y, q = x ++ p ++ y)
    (h : containsSub q s = true) : containsSub p s = true := by
  rw [containsSub_iff] at h ⊢
  obtain ⟨a, b, rfl⟩ := h
  obtain ⟨x, y, rfl⟩ := hpq
  exact ⟨a ++ x, y ++ b, by simp⟩

/-! ## Claim C7 -/

/-- **C7** (corrected).  `parse_progress_line` yields nothing exactly for
the lines whose ANSI-stripped form contains neither `"Passes completed:"`
nor the substring `"Pass "` (trailing space) at all.  Contrary to the
claim, no following digit is required: a line containing `"Pass "` followed
by a non-digit **is** recognized, with the pass number defaulting to 1 —
see `C7_counterexample`. -/
theorem C7_none_iff (line : Str) (total_passes : Nat) :
    parse_progress_line line total_passes = .ok none ↔
      (containsSub ("Passes completed:".data) (strip_ansi line) = false ∧
       containsSub ("Pass ".data) (strip_ansi line) = false) := by
  have hmono1 : containsSub ("Passes completed:".data) (strip_ansi line) = true →
      containsSub ("Pass".data) (strip_ansi line) = true :=
    containsSub_mono ⟨[], "es completed:".data, by decide⟩
  have hmono2 : containsSub ("Pass ".data) (strip_ansi line) = true →
      containsSub ("Pass".data) (strip_ansi line) = true :=
    containsSub_mono ⟨[], " ".data, by decide⟩
  simp only [parse_progress_line]
  by_cases hP : containsSub ("Pass".data) (strip_ansi line) = true
  · simp only [hP, Bool.not_true, Bool.false_eq_true, if_false]
    by_cases hPC : containsSub ("Passes completed:".data) (strip_ansi line) = true
    · rw [if_pos hPC]
      simp [hPC]
    · rw [if_neg hPC]
      cases hF : findSubIdx ("Pass ".data) (strip_ansi line) with
      | none =>
        simp only [hF]
        constructor
        · intro _
          refine ⟨by simpa using hPC, ?_⟩
          unfold containsSub
          rw [hF]
          rfl
        · intro _; trivial
      | some idx =>
        simp only [hF]
        constructor
        · intro h
          exfalso
          split at h
          · exact Option.noConfusion (Except.ok.inj h)
          · split at h
            · split at h
              · exact Except.noConfusion h
              · exact Option.noConfusion (Except.ok.inj h)
            · exact Option.noConfusion (Except.ok.inj h)
        · rintro ⟨_, h2⟩
          rw [containsSub_of_find hF] at h2
          exact Bool.noConfusion h2
  · have hp0 : containsSub ("Pass".data) (strip_ansi line) = false := by
      simpa using hP
    simp only [hp0, Bool.not_false, if_true, true_iff]
    exact ⟨Bool.eq_false_iff.mpr (fun hh => hP (hmono1 hh)),
      Bool.eq_false_iff.mpr (fun hh => hP (hmono2 hh))⟩

/-- `"Pass complete"` contains `"Pass "` followed by a non-digit, yet it is
recognized: pass defaults to 1 and the line is reported as a completed-pass
event — the claim says it yields nothing. -/
theorem C7_counterexample :
    parse_progress_line ("Pass complete".data) 3 =
      .ok (some ⟨1, 3, ((1 : ℕ) : ℚ) / ((3 : ℕ) : ℚ) * 100, 0, "Pass complete".data,
        "complete".data⟩) := rfl

/-! ## Claim C8 -/

theorem parseDecimal_nonneg {s : Str} {q : ℚ} (h : parseDecimal s = some q) : 0 ≤ q := by
  simp only [parseDecimal] at h
  split at h
  · split at h
    · exact Option.noConfusion h
    · obtain rfl := Option.some.inj h
      positivity
  · split at h
    · obtain rfl := Option.some.inj h
      positivity
    · exact Option.noConfusion h
  · exact Option.noConfusion h

theorem withinPct_nonneg (clean : Str) (i : Nat) : 0 ≤ withinPct clean i := by
  unfold withinPct
  cases hp : parseDecimal (pctRun clean i) with
  | none => simp
  | some q => simpa using parseDecimal_nonneg hp

/-- **C8** (corrected).  Whenever `parse_progress_line` produces an event
whose `pass` does not exceed `total_passes` and whose within-pass
percentage token (when the line has one) parses to at most 100, the overall
`percent` lies in `[0, 100]`.  Without those bounds the claim is false: a
pass number larger than `total_passes` drives `percent` above 100 — see
`C8_counterexample`. -/
theorem C8_percent_range (line : Str) (total_passes : Nat) (p : WipeProgress)
    (htot : 1 ≤ total_passes)
    (hres : parse_progress_line line total_passes = .ok (some p))
    (hpass : p.pass ≤ total_passes)
    (hw : ∀ i, (strip_ansi line).findIdx? (fun c => c = '%') = some i →
        withinPct (strip_ansi line) i ≤ 100) :
    0 ≤ p.percent ∧ p.percent ≤ 100 := by
  have hT : (0 : ℚ) < (total_passes : ℚ) := by
    exact_mod_cast Nat.lt_of_lt_of_le Nat.zero_lt_one htot
  simp only [parse_progress_line] at hres
  split at hres
  · exact Option.noConfusion (Except.ok.inj hres)
  · split at hres
    · obtain rfl := Option.some.inj (Except.ok.inj hres)
      norm_num
    · split at hres
      · exact Option.noConfusion (Except.ok.inj hres)
      · rename_i x j hj
        split at hres
        · obtain rfl := Option.some.inj (Except.ok.inj hres)
          simp only at hpass ⊢
          set n := (rustParseNat u32max
            (((strip_ansi line).drop (j + 5)).takeWhile rustIsNumeric)).getD 1 with hn
          refine ⟨by positivity, ?_⟩
          have h1 : (n : ℚ) ≤ (total_passes : ℚ) := by exact_mod_cast hpass
          have h2 : (n : ℚ) / (total_passes : ℚ) ≤ 1 := (div_le_one hT).mpr h1
          nlinarith
        · split at hres
          · rename_i pctIdx hpct
            split at hres
            · exact Except.noConfusion hres
            · obtain rfl := Option.some.inj (Except.ok.inj hres)
              simp only at hpass ⊢
              set n := (rustParseNat u32max
                (((strip_ansi line).drop (j + 5)).takeWhile rustIsNumeric)).getD 1 with hn
              set w := withinPct (strip_ansi line) pctIdx with hwdef
              have hw1 : w ≤ 100 := hw pctIdx hpct
              have hw0 : 0 ≤ w := withinPct_nonneg (strip_ansi line) pctIdx
              have hc0 : (0 : ℚ) ≤ ((n - 1 : ℕ) : ℚ) := Nat.cast_nonneg _
              refine ⟨?_, ?_⟩
              · have h0 : (0 : ℚ) ≤ ((n - 1 : ℕ) : ℚ) + w / 100 := by linarith
                have := div_nonneg h0 hT.le
                nlinarith
              · have hn2 : ((n - 1 : ℕ) : ℚ) ≤ ((total_passes - 1 : ℕ) : ℚ) := by
                  exact_mod_cast (by omega : (n - 1 : ℕ) ≤ total_passes - 1)
                have hn3 : ((total_passes - 1 : ℕ) : ℚ) = (total_passes : ℚ) - 1 :=
                  Nat.cast_sub htot
                have hsum : ((n - 1 : ℕ) : ℚ) + w / 100 ≤ (total_passes : ℚ) := by
                  rw [hn3] at hn2
                  linarith
                have hdiv := (div_le_one hT).mpr hsum
                nlinarith
          · obtain rfl := Option.some.inj (Except.ok.inj hres)
            norm_num

/-- `"Pass 5 complete"` with `total_passes = 3` yields
`percent = 5/3·100 ≈ 166.7 > 100`, refuting the claimed `[0, 100]` range. -/
theorem C8_counterexample :
    parse_progress_line ("Pass 5 complete".data) 3 =
      .ok (some ⟨5, 3, ((5 : ℕ) : ℚ) / ((3 : ℕ) : ℚ) * 100, 0, "Pass 5 complete".data,
        "complete".data⟩)
    ∧ ¬(((5 : ℕ) : ℚ) / ((3 : ℕ) : ℚ) * 100 ≤ 100) :=
  ⟨rfl, by norm_num⟩

theorem C8_witness :
    0 ≤ (⟨2, 3, (((1 : ℕ) : ℚ) + ((50 : ℕ) : ℚ) / 100) / ((3 : ℕ) : ℚ) * 100, 0,
        strip_ansi ("PROGRESS: Pass 2 - 25000MB / 50000MB (50%)".data),
        "writing".data⟩ : WipeProgress).percent ∧
      (⟨2, 3, (((1 : ℕ) : ℚ) + ((50 : ℕ) : ℚ) / 100) / ((3 : ℕ) : ℚ) * 100, 0,
        strip_ansi ("PROGRESS: Pass 2 - 25000MB / 50000MB (50%)".data),
        "writing".data⟩ : WipeProgress).percent ≤ 100 :=
  C8_percent_range ("PROGRESS: Pass 2 - 25000MB / 50000MB (50%)".data) 3 _ (by norm_num) rfl
    (by norm_num)
    (fun i hi => by
      have h40 : (strip_ansi ("PROGRESS: Pass 2 - 25000MB / 50000MB (50%)".data)).findIdx?
          (fun c => c = '%') = some 40 := rfl
      rw [h40] at hi
      obtain rfl := Option.some.inj hi
      have hv : withinPct (strip_ansi ("PROGRESS: Pass 2 - 25000MB / 50000MB (50%)".data)) 40
          = ((50 : ℕ) : ℚ) := rfl
      rw [hv]
      norm_num)

/-! ## Claim C6 -/

theorem takeWhile_congr_on {p q : Char → Bool} :
    ∀ {l : Str}, (∀ c ∈ l, p c = q c) → l.takeWhile p = l.takeWhile q := by
  intro l
  induction l with
  | nil => intro _; rfl
  | cons c t ih =>
    intro h
    simp only [List.takeWhile_cons]
    rw [h c (by simp)]
    cases q c
    · rfl
    · rw [ih (fun x hx => h x (by simp [hx]))]

theorem head?_mem {l : Str} {c : Char} (h : l.head? = some c) : c ∈ l := by
  cases l with
  | nil => exact Option.noConfusion h
  | cons d t =>
    obtain rfl := Option.some.inj h
    exact List.mem_cons_self _ _

theorem strip_ansi_go_subset_n :
    ∀ (n : Nat) (b : Bool) (s : Str), s.length ≤ n → ∀ c ∈ strip_ansi_go b s, c ∈ s := by
  intro n
  induction n with
  | zero =>
    intro b s hs c hc
    rcases s with _ | ⟨d, t⟩
    · cases b <;> exact absurd hc (by simp [strip_ansi_go])
    · simp at hs
  | succ n ih =>
    intro b s hs c hc
    rcases s with _ | ⟨d, t⟩
    · cases b <;> exact absurd hc (by simp [strip_ansi_go])
    · have ht : t.length ≤ n := by simpa using hs
      cases b with
      | true =>
        rw [strip_ansi_go] at hc
        by_cases hd : d = 'm'
        · rw [if_pos hd] at hc
          exact List.mem_cons_of_mem d (ih false t ht c hc)
        · rw [if_neg hd] at hc
          exact List.mem_cons_of_mem d (ih true t ht c hc)
      | false =>
        by_cases hd : d = '\x1b'
        · subst hd
          rcases t with _ | ⟨e, t2⟩
          · exact absurd hc (by simp [strip_ansi_go])
          · rw [show strip_ansi_go false ('\x1b' :: e :: t2) =
                (if e = '[' then strip_ansi_go true t2 else strip_ansi_go false (e :: t2)) from by
              simp [strip_ansi_go]] at hc
            by_cases he : e = '['
            · rw [if_pos he] at hc
              have ht2 : t2.length ≤ n := by simp at ht; omega
              exact List.mem_cons_of_mem _ (List.mem_cons_of_mem _ (ih true t2 ht2 c hc))
            · rw [if_neg he] at hc
              exact List.mem_cons_of_mem _ (ih false (e :: t2) ht c hc)
        · rw [strip_ansi_go_false_cons_ne d t hd] at hc
          rcases List.mem_cons.mp hc with rfl | hc2
          · exact List.mem_cons_self _ _
          · exact List.mem_cons_of_mem d (ih false t ht c hc2)

theorem strip_ansi_subset (s : Str) : ∀ c ∈ strip_ansi s, c ∈ s :=
  strip_ansi_go_subset_n s.length false s le_rfl

theorem rustIsNumeric_ascii {c : Char} (h : c.toNat ≤ 127) : rustIsNumeric c = c.isDigit := by
  unfold rustIsNumeric
  rw [if_pos h]

/-- On an all-ASCII line the byte position after the `rfind` match is a
character boundary, so the Rust slice cannot panic. -/
theorem pctCrash_ascii {clean : Str} (h : ∀ c ∈ clean, c.toNat ≤ 127) (i : Nat) :
    pctCrash clean i = false := by
  unfold pctCrash pctBoundary
  cases hh : ((clean.take i).reverse.dropWhile numRunChar).head? with
  | none => rfl
  | some c =>
    have h1 : c ∈ (clean.take i).reverse.dropWhile numRunChar := head?_mem hh
    have h2 : c ∈ (clean.take i).reverse := (List.dropWhile_sublist _).subset h1
    have h3 : c ∈ clean.take i := List.mem_reverse.mp h2
    have h4 : c ∈ clean := List.take_subset i clean h3
    simp [Option.any, charWidth_eq_one (h c h4)]

/-- Spec-side pass extraction: the run of (ASCII) digits immediately after
the first occurrence of `"Pass "`, parsed as a `u32`, defaulting to 1. -/
def specPassOf (clean : Str) (idx : Nat) : Nat :=
  (rustParseNat u32max ((clean.drop (idx + 5)).takeWhile Char.isDigit)).getD 1

/-- Spec-side: the run of digits/decimal-points immediately preceding the
percent sign. -/
def specPctRun (clean : Str) (pctIdx : Nat) : Str :=
  ((clean.take pctIdx).reverse.takeWhile (fun c => c.isDigit || c = '.')).reverse

/-- Spec-side within-pass percentage: the run before the `%` parsed as a
decimal, `0` on parse failure. -/
def specWithin (clean : Str) (pctIdx : Nat) : ℚ :=
  (parseDecimal (specPctRun clean pctIdx)).getD 0

/-- **C6** (corrected).  For an all-ASCII line whose ANSI-stripped form has
`"Pass "` (first occurrence at `idx`), no `"complete"`, and a `%` (first at
`pctIdx`), the parser yields a `writing` event whose `percent` is
`((pass − 1) + within/100) / total_passes · 100`, with `pass` the digit run
after `"Pass "` (default 1) and `within` the digit/dot run before the `%`
(0 on parse failure) — exactly the claim's formula.  The ASCII restriction
is forced: on a line with a multi-byte character before the percentage run
the Rust code panics instead of yielding an event — see
`C6_counterexample`. -/
theorem C6_within_pass (line : Str) (total_passes idx pctIdx : Nat)
    (hascii : ∀ c ∈ line, c.toNat ≤ 127)
    (hfind : findSubIdx ("Pass ".data) (strip_ansi line) = some idx)
    (hnc : containsSub ("complete".data) (strip_ansi line) = false)
    (hpct : (strip_ansi line).findIdx? (fun c => c = '%') = some pctIdx) :
    parse_progress_line line total_passes =
      .ok (some ⟨specPassOf (strip_ansi line) idx, total_passes,
        (((specPassOf (strip_ansi line) idx - 1 : ℕ) : ℚ) +
          specWithin (strip_ansi line) pctIdx / 100) / (total_passes : ℚ) * 100,
        0, strip_ansi line, "writing".data⟩) := by
  have hcleanAscii : ∀ c ∈ strip_ansi line, c.toNat ≤ 127 :=
    fun c hc => hascii c (strip_ansi_subset line c hc)
  have hP : containsSub ("Pass".data) (strip_ansi line) = true :=
    containsSub_mono ⟨[], " ".data, by decide⟩ (containsSub_of_find hfind)
  have hPC : containsSub ("Passes completed:".data) (strip_ansi line) = false := by
    refine Bool.eq_false_iff.mpr (fun hh => ?_)
    have h2 : containsSub ("complete".data) (strip_ansi line) = true :=
      containsSub_mono ⟨"Passes ".data, "d:".data, by decide⟩ hh
    rw [hnc] at h2
    exact Bool.noConfusion h2
  have hpassEq : ((strip_ansi line).drop (idx + 5)).takeWhile rustIsNumeric =
      ((strip_ansi line).drop (idx + 5)).takeWhile Char.isDigit :=
    takeWhile_congr_on (fun c hc =>
      rustIsNumeric_ascii (hcleanAscii c (List.drop_subset _ _ hc)))
  have hrunEq : pctRun (strip_ansi line) pctIdx = specPctRun (strip_ansi line) pctIdx := by
    unfold pctRun specPctRun numRunChar
    rw [takeWhile_congr_on (fun c hc => by
      rw [rustIsNumeric_ascii (hcleanAscii c
        (List.take_subset _ _ (List.mem_reverse.mp hc)))])]
  have hwEq : withinPct (strip_ansi line) pctIdx = specWithin (strip_ansi line) pctIdx := by
    unfold withinPct specWithin
    rw [hrunEq]
  simp only [parse_progress_line, hP, Bool.not_true, Bool.false_eq_true, if_false, hPC, hfind,
    hnc, hpct, pctCrash_ascii hcleanAscii pctIdx]
  rw [hpassEq, hwEq]
  rfl

/-- On `"Pass 1 é50%"` the Rust code panics: `rfind` returns the byte index
of the two-byte character `é` and the slice start `index + 1` is not a
character boundary.  The claim instead promises a `writing` event for this
line. -/
theorem C6_counterexample :
    parse_progress_line ("Pass 1 é50%".data) 3 = .error () := rfl

theorem C6_witness :
    parse_progress_line ("PROGRESS: Pass 2 - 25000MB / 50000MB (50%)".data) 3 =
      .ok (some ⟨specPassOf (strip_ansi ("PROGRESS: Pass 2 - 25000MB / 50000MB (50%)".data)) 10,
        3,
        (((specPassOf (strip_ansi ("PROGRESS: Pass 2 - 25000MB / 50000MB (50%)".data)) 10 - 1 :
            ℕ) : ℚ) +
          specWithin (strip_ansi ("PROGRESS: Pass 2 - 25000MB / 50000MB (50%)".data)) 40 / 100) /
          ((3 : ℕ) : ℚ) * 100,
        0, strip_ansi ("PROGRESS: Pass 2 - 25000MB / 50000MB (50%)".data), "writing".data⟩) :=
  C6_within_pass ("PROGRESS: Pass 2 - 25000MB / 50000MB (50%)".data) 3 10 40 (by decide)
    (by decide) (by decide) (by decide)

end SecureWipe
